import Mathlib

/-!
Shallow embedding of the report assembly engine in
`src/frontend/src/utils/generateReport.js`.

The jsPDF document is modelled as a flat trace of drawing operations
(`Op`); `Op.addPage` markers separate pages, and `splitPages` recovers
the page list that jsPDF builds incrementally.  Style-setter calls
(`setFont`, `setFontSize`, colour setters, `GState` opacity) draw
nothing and are not modelled as operations; the watermark image and the
footer text drawn by `addFooterAndWatermark` are modelled by the
dedicated constructors `Op.watermark` / `Op.footer` so overlay stamps
are distinguishable from ordinary content.  Rational numbers stand for
JS doubles; the page geometry of `jsPDF('p', 'mm', 'a4')` is taken as
the nominal A4 210 x 297 mm.  External effects (remote image loading,
font metrics, the current date, `document.querySelector`, html2canvas)
enter through explicit environment values, and the asynchronous image
loads are modelled by their outcome (`ImgResult`), awaited strictly in
document order exactly as the source awaits them.
-/

/-- `doc.internal.pageSize.getWidth()` for A4 portrait, in mm. -/
def pageWidth : ℚ := 210

/-- `doc.internal.pageSize.getHeight()` for A4 portrait, in mm. -/
def pageHeight : ℚ := 297

/-- `const margin = 15`. -/
def margin : ℚ := 15

/-- Drawing operations recorded on the jsPDF document. -/
inductive Op : Type where
  | addPage : Op
  | text (s : String) (x y : ℚ) : Op
  | rect (x y w h : ℚ) : Op
  | rrect (x y w h : ℚ) : Op
  | line (x1 y1 x2 y2 : ℚ) : Op
  | image (src : String) (x y w h : ℚ) : Op
  | watermark : Op
  | footer (pageNo : Nat) : Op
deriving DecidableEq

/-- Native pixel dimensions read back from a loaded `Image`. -/
structure ImgDim where
  width : ℚ
  height : ℚ
deriving DecidableEq

/-- Outcome of awaiting an `Image` load (`onload` resolves / `onerror`
rejects). -/
inductive ImgResult : Type where
  | ok (dim : ImgDim) : ImgResult
  | err : ImgResult
deriving DecidableEq

/-- One analysis outcome record, as consumed by `generateReport`.
Optional fields model JS properties that may be `undefined`. -/
structure ResultRecord where
  filename : String
  date : Option String
  area_ha : ℚ
  volume_tmc : Option ℚ
  comparison_map : Option String
  result_image : Option String
  combined_volume_map : Option String
  composite_map : Option String
deriving DecidableEq

/-- The external world of one `generateReport` run: the outcome of
loading each image URL, the font metric
`getStringUnitWidth(text) * size / scaleFactor`, and the formatted
current date. -/
structure Env where
  img : String → ImgResult
  strWidth : String → ℚ → ℚ
  dateStr : String

/-- JS truthiness of a possibly-`undefined` string (`undefined` and
`""` are falsy). -/
def jsTruthyStr : Option String → Bool
  | none => false
  | some s => decide (s ≠ "")

/-- JS truthiness of a possibly-`undefined` number (`undefined` and `0`
are falsy). -/
def jsTruthyNum : Option ℚ → Bool
  | none => false
  | some v => decide (v ≠ 0)

/-- JS template interpolation of a possibly-`undefined` string
(`undefined` prints as "undefined"). -/
def jsStrOf : Option String → String
  | none => "undefined"
  | some s => s

/-- JS number-to-string conversion, abstracted. -/
def numToStr (q : ℚ) : String := toString q

/-- JS `a || b` on possibly-`undefined` strings. -/
def jsOr (a b : Option String) : Option String :=
  if jsTruthyStr a then a else b

/-- URL a bare output filename resolves to. -/
def outputsUrl (f : String) : String := "http://localhost:8000/outputs/" ++ f

/-- The `centerText` helper: one text op horizontally centered using the
font metric. -/
def centerTextOp (env : Env) (s : String) (y size : ℚ) : Op :=
  Op.text s ((pageWidth - env.strWidth s size) / 2) y

/-- The `addSectionHeader` helper: accent bar plus upper-cased title.
(The helper returns `y + 15` as the new cursor; callers add 15.) -/
def sectionHeaderOps (title : String) (y : ℚ) : List Op :=
  [Op.rect margin y 4 8, Op.text title.toUpper (margin + 8) (y + 6)]

/-- The summary-table volume cell:
`res.volume_tmc ? `${res.volume_tmc}` : "0.00"`. -/
def volCellText (r : ResultRecord) : String :=
  if jsTruthyNum r.volume_tmc then numToStr (r.volume_tmc.getD 0) else "0.00"

/-- The detail-block volume text:
`res.volume_tmc ? `${res.volume_tmc} TMC` : "0 TMC"`. -/
def volDetailText (r : ResultRecord) : String :=
  if jsTruthyNum r.volume_tmc then numToStr (r.volume_tmc.getD 0) ++ " TMC" else "0 TMC"

/-- Detail-block title line: `${res.filename} (${res.date})`. -/
def titleStr (r : ResultRecord) : String :=
  r.filename ++ " (" ++ jsStrOf r.date ++ ")"

/-- Detail-block stats line:
`Spread: ${areaText}   |   Volume: ${volText}`. -/
def statsStr (r : ResultRecord) : String :=
  "Spread: " ++ numToStr r.area_ha ++ " Ha   |   Volume: " ++ volDetailText r

/-- The summary-table date cell: `res.date || `Dataset ${index + 1}``. -/
def dateCellStr (idx : Nat) (r : ResultRecord) : String :=
  if jsTruthyStr r.date then r.date.getD "" else "Dataset " ++ toString (idx + 1)

/-- One summary-table row (`results.forEach` body): optional
alternating-row fill, then the three cells.  `colWidths = [50, 60, 60]`
is used for the data cells. -/
def tableRow (idx : Nat) (c : ℚ) (r : ResultRecord) : List Op :=
  (if idx % 2 = 1 then [Op.rect margin c (pageWidth - 2 * margin) 8] else []) ++
    [Op.text (dateCellStr idx r) (margin + 2) (c + 6),
     Op.text (numToStr r.area_ha) (margin + 2 + 50) (c + 6),
     Op.text (volCellText r) (margin + 2 + 50 + 60) (c + 6)]

/-- The summary-table data loop: each row advances the cursor by 8 with
no page-flow consultation. -/
def summaryRows (c : ℚ) (idx : Nat) : List ResultRecord → List Op × ℚ
  | [] => ([], c)
  | r :: rs =>
    let rest := summaryRows (c + 8) (idx + 1) rs
    (tableRow idx c r ++ rest.1, rest.2)

/-- Image scaling rule of `addRemoteImage`:
`w = maxW; h = ih * w / iw; if (h > maxH) { h = maxH; w = iw * h / ih }`. -/
def fitImage (iw ih maxW maxH : ℚ) : ℚ × ℚ :=
  let w := maxW
  let h := ih * w / iw
  if h > maxH then (iw * maxH / ih, maxH) else (w, h)

/-- The `addRemoteImage` helper: early return on a falsy filename,
page-break check against a 120-estimate, section header, then an awaited
load; on success the image is fitted and centered, on failure only a
console warning is issued. -/
def addRemoteImage (env : Env) (filename : Option String) (title : String) (c : ℚ) :
    List Op × ℚ :=
  if jsTruthyStr filename then
    let f := filename.getD ""
    let brk : List Op := if c + 120 > pageHeight - margin then [Op.addPage] else []
    let c1 : ℚ := if c + 120 > pageHeight - margin then margin + 10 else c
    let hdr := sectionHeaderOps title c1
    let c2 := c1 + 15
    match env.img (outputsUrl f) with
    | ImgResult.ok dim =>
      let p := fitImage dim.width dim.height (pageWidth - 2 * margin) 120
      (brk ++ hdr ++ [Op.image (outputsUrl f) ((pageWidth - p.1) / 2) c2 p.1 p.2],
        c2 + p.2 + 10)
    | ImgResult.err => (brk ++ hdr, c2)
  else ([], c)

/-- The one composite-image block: only `results[0].combined_volume_map`
is consulted (the `composite_map` call site is commented out in the
source). -/
def compositeOps (env : Env) (results : List ResultRecord) (c : ℚ) : List Op × ℚ :=
  match results with
  | [] => ([], c)
  | r :: _ =>
    if jsTruthyStr r.combined_volume_map then
      addRemoteImage env r.combined_volume_map "Multi-Temporal 3D Volumetric View" c
    else ([], c)

/-- The detail image reference:
`res.comparison_map || res.result_image`. -/
def imgFileOf (r : ResultRecord) : Option String :=
  jsOr r.comparison_map r.result_image

/-- The detail-block image sub-block: skipped silently when the
reference is falsy; otherwise an awaited load that on success draws the
fitted image (height capped at 100) and on failure draws the
"[Image Unavailable]" marker. -/
def imageAttemptOps (env : Env) (c : ℚ) (imgFile : Option String) : List Op × ℚ :=
  if jsTruthyStr imgFile then
    let f := imgFile.getD ""
    match env.img (outputsUrl f) with
    | ImgResult.ok dim =>
      let maxW := pageWidth - 2 * margin
      let h := dim.height * maxW / dim.width
      let p : ℚ × ℚ := if h > 100 then ((dim.width * 100) / dim.height, 100) else (maxW, h)
      ([Op.image (outputsUrl f) margin c p.1 p.2], c + p.2 + 10)
    | ImgResult.err => ([Op.text "[Image Unavailable]" margin (c + 10)], c + 20)
  else ([], c + 5)

/-- The body of one record's detail block, drawn at cursor `c`: title
line, stats line, image sub-block, horizontal separator. -/
def bodyOps (env : Env) (c : ℚ) (r : ResultRecord) : List Op × ℚ :=
  let t1 := Op.text (titleStr r) margin c
  let c1 := c + 5
  let t2 := Op.text (statsStr r) margin c1
  let c2 := c1 + 5
  let img := imageAttemptOps env c2 (imgFileOf r)
  let c3 := img.2 + 5
  (t1 :: t2 :: (img.1 ++ [Op.line margin c3 (pageWidth - margin) c3]), c3 + 10)

/-- One full record iteration of the detail loop: page-break check
against the 80-estimate before anything of the block is drawn, then the
block body. -/
def recordBlock (env : Env) (c : ℚ) (r : ResultRecord) : List Op × ℚ :=
  if c + 80 > pageHeight - margin then
    let p := bodyOps env (margin + 10) r
    (Op.addPage :: p.1, p.2)
  else bodyOps env c r

/-- `for (const res of results)` over the detail blocks. -/
def detailLoop (env : Env) (c : ℚ) : List ResultRecord → List Op × ℚ
  | [] => ([], c)
  | r :: rs =>
    let p := recordBlock env c r
    let q := detailLoop env p.2 rs
    (p.1 ++ q.1, q.2)

/-- The detailed-analysis section: guarded by `results.length > 0`,
forced page break, section header, then the record loop. -/
def detailSection (env : Env) (c : ℚ) (results : List ResultRecord) : List Op × ℚ :=
  if 0 < results.length then
    let c1 : ℚ := margin + 10
    let hdr := sectionHeaderOps "Detailed Analysis" c1
    let p := detailLoop env (c1 + 15) results
    (Op.addPage :: (hdr ++ p.1), p.2)
  else ([], c)

/-- The mission-statement paragraph (drawn through `splitTextToSize`;
line wrapping is not modelled, the paragraph is one text op). -/
def missionText : String :=
  "This report provides a comprehensive analysis of the water body using satellite imagery and Digital Elevation Models (DEM). The data below supports environmental monitoring, resource management, and hydraulic capacity planning."

/-- The full content phase of `generateReport`, before the overlay
pass: page-1 banner, titles, mission box, summary table, composite
image block, detailed-analysis section.  (`results` is always an array
here, so the `Array.isArray(results)` guard around the table rows is
satisfied.) -/
def contentTrace (env : Env) (results : List ResultRecord) (projectTitle : String) :
    List Op × ℚ :=
  let headerOps : List Op :=
    [Op.rect 0 0 pageWidth 40,
     Op.text "NEERPARIKSHA" margin 20,
     Op.text "Advanced Geospatial Water Analytics" margin 27,
     Op.text env.dateStr (pageWidth - margin - 50) 20]
  let cursorY : ℚ := 55
  let t1 := centerTextOp env "AUTOMATED WATER SPREAD & VOLUME REPORT" cursorY 18
  let cursorY := cursorY + 10
  let t2 := centerTextOp env ("Project: " ++ projectTitle) cursorY 12
  let cursorY := cursorY + 20
  let mission : List Op :=
    [Op.rrect margin cursorY (pageWidth - margin * 2) 35,
     Op.text missionText (margin + 5) (cursorY + 10)]
  let cursorY := cursorY + 45
  let secHdr := sectionHeaderOps "Hydrological Metrics" cursorY
  let cursorY := cursorY + 15
  let tableHdr : List Op :=
    [Op.rect margin cursorY (pageWidth - 2 * margin) 10,
     Op.text "Date" (margin + 2) (cursorY + 7),
     Op.text "Spread Area (Ha)" (margin + 2 + 60) (cursorY + 7),
     Op.text "Volume (TMC)" (margin + 2 + 60 + 60) (cursorY + 7)]
  let cursorY := cursorY + 10
  let rows := summaryRows cursorY 0 results
  let cursorY := rows.2 + 15
  let comp := compositeOps env results cursorY
  let det := detailSection env comp.2 results
  (headerOps ++ [t1, t2] ++ mission ++ secHdr ++ tableHdr ++ rows.1 ++ comp.1 ++ det.1,
    det.2)

/-- Split a flat content trace into the page list jsPDF accumulates:
`addPage` starts a fresh page. -/
def splitPagesAux (cur : List Op) : List Op → List (List Op)
  | [] => [cur.reverse]
  | o :: rest =>
    if o = Op.addPage then cur.reverse :: splitPagesAux [] rest
    else splitPagesAux (o :: cur) rest

/-- The page list of a content trace (a document starts with one page). -/
def splitPages (ops : List Op) : List (List Op) := splitPagesAux [] ops

/-- `addFooterAndWatermark(pageNo)`: the centered low-opacity watermark
image, then the footer text carrying the 1-based page number. -/
def addFooterAndWatermark (pageNo : Nat) : List Op :=
  [Op.watermark, Op.footer pageNo]

/-- The overlay loop `for (let i = 1; i <= pageCount; i++)`: stamp page
`i` with `addFooterAndWatermark(i)`. -/
def stampFrom (n : Nat) : List (List Op) → List (List Op)
  | [] => []
  | p :: ps => (p ++ addFooterAndWatermark n) :: stampFrom (n + 1) ps

/-- The whole `generateReport` run: content phase, then the overlay pass
over the final page list. -/
def generateReport (env : Env) (results : List ResultRecord) (projectTitle : String) :
    List (List Op) :=
  stampFrom 1 (splitPages (contentTrace env results projectTitle).1)

/-- The mutable inline style of a chart element, as touched by
`captureChart`. -/
structure ElemStyle where
  background : String
  borderRadius : String
deriving DecidableEq

/-- Outcome of awaiting `html2canvas` (canvas pixel size on success). -/
inductive CanvasRes : Type where
  | ok (width height : ℚ) : CanvasRes
  | err : CanvasRes
deriving DecidableEq

/-- The `captureChart` helper (its call sites are commented out in the
source): if the element exists, page-break check, section header, style
override to solid background and square corners, awaited capture; the
original style is written back only after `html2canvas` resolves, so the
catch branch leaves the override in place.  Returns the emitted ops, the
new cursor, and the element's final inline style. -/
def captureChart (title : String) (elem : Option ElemStyle) (res : CanvasRes) (cursorY : ℚ) :
    List Op × ℚ × Option ElemStyle :=
  match elem with
  | none => ([], cursorY, none)
  | some st =>
    let brk : List Op := if cursorY + 70 > pageHeight - margin then [Op.addPage] else []
    let c1 : ℚ := if cursorY + 70 > pageHeight - margin then margin + 10 else cursorY
    let hdr := sectionHeaderOps title c1
    let c2 := c1 + 15
    match res with
    | CanvasRes.ok cw ch =>
      let imgWidth := pageWidth - 2 * margin
      let imgHeight := ch * imgWidth / cw
      (brk ++ hdr ++ [Op.image "chart-canvas" margin c2 imgWidth imgHeight],
        c2 + imgHeight + 10, some st)
    | CanvasRes.err =>
      (brk ++ hdr, c2, some { background := "#0f172a", borderRadius := "0" })

/-- Ops emitted only by the overlay pass. -/
def isOverlay : Op → Bool
  | Op.watermark => true
  | Op.footer _ => true
  | _ => false

/-- Footer stamps. -/
def isFooterOp : Op → Bool
  | Op.footer _ => true
  | _ => false

/-- Image ops. -/
def isImageOp : Op → Bool
  | Op.image _ _ _ _ _ => true
  | _ => false

/-- A list of ops containing no overlay stamp. -/
def noOverlay (ops : List Op) : Bool := ops.all fun o => !isOverlay o

/-- Number of footer stamps in a list of ops. -/
def footerCount (ops : List Op) : Nat := ops.countP isFooterOp

/-- Number of image ops in a list of ops. -/
def imageCount (ops : List Op) : Nat := ops.countP isImageOp

/-- Shape of the detail-image sub-block of one record: either the
reference `comparison_map || result_image` is falsy and nothing is
drawn, or it resolves to a file and the attempt draws either the fitted
image or the "[Image Unavailable]" marker. -/
def isImageAttempt (r : ResultRecord) (ops : List Op) : Prop :=
  (jsTruthyStr (imgFileOf r) = false ∧ ops = []) ∨
  (∃ f, imgFileOf r = some f ∧ jsTruthyStr (imgFileOf r) = true ∧
    ((∃ x y w h, ops = [Op.image (outputsUrl f) x y w h]) ∨
     (∃ y, ops = [Op.text "[Image Unavailable]" margin y])))

/-- Shape of one record's detail block: an optional page break, the
title line, the stats line immediately below it, the image attempt,
then the horizontal separator. -/
def isRecordBlock (r : ResultRecord) (ops : List Op) : Prop :=
  ∃ (brk imgOps : List Op) (y1 ys : ℚ),
    (brk = [] ∨ brk = [Op.addPage]) ∧
    isImageAttempt r imgOps ∧
    ops = brk ++
      (Op.text (titleStr r) margin y1 :: Op.text (statsStr r) margin (y1 + 5) ::
        (imgOps ++ [Op.line margin ys (pageWidth - margin) ys]))

/-- Relation between a record and its emitted detail block, including
how the block degrades when this record's image acquisition fails. -/
def blockRel (env : Env) (r : ResultRecord) (ops : List Op) : Prop :=
  isRecordBlock r ops ∧
  ∀ f, imgFileOf r = some f → f ≠ "" → env.img (outputsUrl f) = ImgResult.err →
    ∃ y, Op.text "[Image Unavailable]" margin y ∈ ops

/-- A minimal concrete record (no optional fields). -/
def rec0 : ResultRecord :=
  { filename := "a.tif", date := none, area_ha := 100, volume_tmc := none,
    comparison_map := none, result_image := none,
    combined_volume_map := none, composite_map := none }

/-- A concrete environment in which every image load succeeds with a
100 x 50 bitmap. -/
def env0 : Env :=
  { img := fun _ => ImgResult.ok { width := 100, height := 50 },
    strWidth := fun _ _ => 0, dateStr := "January 1, 2026" }

/-- A concrete environment in which every image load fails. -/
def envErr : Env :=
  { img := fun _ => ImgResult.err, strWidth := fun _ _ => 0, dateStr := "" }

/-- Twenty identical records: enough summary-table rows to run past the
bottom margin of page 1. -/
def recs20 : List ResultRecord := List.replicate 20 rec0

/-- A record whose `composite_map` slot is present while
`combined_volume_map` is absent. -/
def rComp : ResultRecord :=
  { rec0 with composite_map := some "comp.png" }

/-- A record whose volume is exactly 0. -/
def rZero : ResultRecord :=
  { rec0 with volume_tmc := some 0 }

/-- A record whose detail image reference is present (so its
acquisition can fail). -/
def rFail : ResultRecord :=
  { rec0 with comparison_map := some "x.png" }

/-- A record whose `combined_volume_map` slot is present. -/
def rCombined : ResultRecord :=
  { rec0 with combined_volume_map := some "cv.png" }

theorem noOverlay_append (a b : List Op) :
    noOverlay (a ++ b) = (noOverlay a && noOverlay b) :=
  List.all_append

theorem tableRow_noOverlay (idx : Nat) (c : ℚ) (r : ResultRecord) :
    noOverlay (tableRow idx c r) = true := by
  unfold tableRow
  split <;> rfl

theorem summaryRows_noOverlay :
    ∀ (recs : List ResultRecord) (c : ℚ) (idx : Nat),
      noOverlay (summaryRows c idx recs).1 = true := by
  intro recs
  induction recs with
  | nil => intro c idx; rfl
  | cons r rs ih =>
    intro c idx
    show noOverlay (tableRow idx c r ++ (summaryRows (c + 8) (idx + 1) rs).1) = true
    rw [noOverlay_append, tableRow_noOverlay, ih]
    rfl

theorem addRemoteImage_noOverlay (env : Env) (fn : Option String) (t : String) (c : ℚ) :
    noOverlay (addRemoteImage env fn t c).1 = true := by
  unfold addRemoteImage
  split
  · dsimp only
    split <;> split <;> rfl
  · rfl

theorem compositeOps_noOverlay (env : Env) (results : List ResultRecord) (c : ℚ) :
    noOverlay (compositeOps env results c).1 = true := by
  unfold compositeOps
  split
  · rfl
  · split
    · exact addRemoteImage_noOverlay ..
    · rfl

theorem imageAttemptOps_noOverlay (env : Env) (c : ℚ) (fn : Option String) :
    noOverlay (imageAttemptOps env c fn).1 = true := by
  unfold imageAttemptOps
  split
  · dsimp only
    split <;> rfl
  · rfl

theorem bodyOps_noOverlay (env : Env) (c : ℚ) (r : ResultRecord) :
    noOverlay (bodyOps env c r).1 = true := by
  show noOverlay
      (Op.text (titleStr r) margin c :: Op.text (statsStr r) margin (c + 5) ::
        ((imageAttemptOps env (c + 5 + 5) (imgFileOf r)).1 ++ [Op.line ..])) = true
  show (!isOverlay (Op.text (titleStr r) margin c) &&
      (!isOverlay (Op.text (statsStr r) margin (c + 5)) &&
        noOverlay ((imageAttemptOps env (c + 5 + 5) (imgFileOf r)).1 ++ [Op.line ..]))) = true
  rw [noOverlay_append, imageAttemptOps_noOverlay]
  rfl

theorem recordBlock_noOverlay (env : Env) (c : ℚ) (r : ResultRecord) :
    noOverlay (recordBlock env c r).1 = true := by
  unfold recordBlock
  split
  · show (!isOverlay Op.addPage && noOverlay (bodyOps env (margin + 10) r).1) = true
    rw [bodyOps_noOverlay]
    rfl
  · exact bodyOps_noOverlay ..

theorem detailLoop_noOverlay :
    ∀ (recs : List ResultRecord) (env : Env) (c : ℚ),
      noOverlay (detailLoop env c recs).1 = true := by
  intro recs
  induction recs with
  | nil => intro env c; rfl
  | cons r rs ih =>
    intro env c
    show noOverlay
        ((recordBlock env c r).1 ++ (detailLoop env (recordBlock env c r).2 rs).1) = true
    rw [noOverlay_append, recordBlock_noOverlay, ih]
    rfl

theorem detailSection_noOverlay (env : Env) (c : ℚ) (results : List ResultRecord) :
    noOverlay (detailSection env c results).1 = true := by
  unfold detailSection
  split
  · show (!isOverlay Op.addPage &&
        noOverlay (sectionHeaderOps "Detailed Analysis" (margin + 10) ++
          (detailLoop env (margin + 10 + 15) results).1)) = true
    rw [noOverlay_append, detailLoop_noOverlay]
    rfl
  · rfl

theorem contentTrace_noOverlay (env : Env) (results : List ResultRecord) (t : String) :
    noOverlay (contentTrace env results t).1 = true := by
  unfold contentTrace
  dsimp only
  rw [noOverlay_append, noOverlay_append, noOverlay_append, noOverlay_append,
    noOverlay_append, noOverlay_append, noOverlay_append]
  rw [summaryRows_noOverlay, compositeOps_noOverlay, detailSection_noOverlay]
  rfl

theorem splitPagesAux_noOverlay :
    ∀ (l cur : List Op), noOverlay l = true → noOverlay cur = true →
      ∀ p ∈ splitPagesAux cur l, noOverlay p = true := by
  intro l
  induction l with
  | nil =>
    intro cur hl hcur p hp
    simp only [splitPagesAux, List.mem_singleton] at hp
    subst hp
    simpa only [noOverlay, List.all_reverse] using hcur
  | cons o rest ih =>
    intro cur hl hcur p hp
    simp only [noOverlay, List.all_cons, Bool.and_eq_true] at hl
    obtain ⟨ho, hrest⟩ := hl
    simp only [splitPagesAux] at hp
    by_cases he : o = Op.addPage
    · rw [if_pos he] at hp
      rcases List.mem_cons.mp hp with h | h
      · subst h
        simpa only [noOverlay, List.all_reverse] using hcur
      · exact ih [] hrest rfl p h
    · rw [if_neg he] at hp
      refine ih (o :: cur) hrest ?_ p hp
      simp only [noOverlay, List.all_cons, Bool.and_eq_true]
      exact ⟨ho, hcur⟩

theorem splitPages_noOverlay (l : List Op) (h : noOverlay l = true) :
    ∀ p ∈ splitPages l, noOverlay p = true :=
  splitPagesAux_noOverlay l [] h rfl

theorem stampFrom_length : ∀ (ps : List (List Op)) (n : Nat),
    (stampFrom n ps).length = ps.length := by
  intro ps
  induction ps with
  | nil => intro n; rfl
  | cons p ps ih => intro n; simpa [stampFrom] using ih (n + 1)

theorem stampFrom_getElem? :
    ∀ (ps : List (List Op)) (n i : Nat),
      (stampFrom n ps)[i]? =
        (ps[i]?).map (fun p => p ++ [Op.watermark, Op.footer (n + i)]) := by
  intro ps
  induction ps with
  | nil => intro n i; simp [stampFrom]
  | cons p ps ih =>
    intro n i
    cases i with
    | zero => simp [stampFrom, addFooterAndWatermark]
    | succ j =>
      have := ih (n + 1) j
      simp only [stampFrom, List.getElem?_cons_succ]
      rw [this]
      have harith : n + 1 + j = n + (j + 1) := by omega
      rw [harith]

theorem footerCount_of_noOverlay (ops : List Op) (h : noOverlay ops = true) :
    footerCount ops = 0 := by
  refine List.countP_eq_zero.mpr ?_
  intro a ha hfa
  have := List.all_eq_true.mp h a ha
  cases a <;> simp_all [isOverlay, isFooterOp]

theorem footerCount_stamped (p : List Op) (n : Nat) :
    footerCount (p ++ addFooterAndWatermark n) = footerCount p + 1 := by
  rw [footerCount, List.countP_append]
  rfl

theorem stampFrom_footer_sum :
    ∀ (ps : List (List Op)) (n : Nat), (∀ p ∈ ps, footerCount p = 0) →
      ((stampFrom n ps).map footerCount).sum = ps.length := by
  intro ps
  induction ps with
  | nil => intro n _; rfl
  | cons p ps ih =>
    intro n h
    simp only [stampFrom, List.map_cons, List.sum_cons, footerCount_stamped]
    rw [h p (List.mem_cons_self ..), ih (n + 1) (fun q hq => h q (List.mem_cons_of_mem _ hq))]
    simp only [List.length_cons]
    omega

/-- Claim C3: after the overlay pass at the end of `generateReport`,
every page of the finished document carries exactly one watermark
followed by one footer, appended after all of that page's content; the
total number of footer stamps equals the final page count and the
footers carry sequential 1-based page numbers, so no page is stamped
twice. -/
theorem overlay_pass_complete :
    ∀ (env : Env) (recs : List ResultRecord) (title : String),
      ((generateReport env recs title).map footerCount).sum =
          (generateReport env recs title).length ∧
      ∀ i (hi : i < (generateReport env recs title).length),
        ∃ pre : List Op,
          (generateReport env recs title).get ⟨i, hi⟩ =
              pre ++ [Op.watermark, Op.footer (i + 1)] ∧
          noOverlay pre = true := by
  intro env recs title
  have hpages := splitPages_noOverlay _ (contentTrace_noOverlay env recs title)
  constructor
  · rw [generateReport,
      stampFrom_footer_sum _ 1 (fun p hp => footerCount_of_noOverlay p (hpages p hp)),
      stampFrom_length]
  · intro i hi
    have hi' : i < (stampFrom 1 (splitPages (contentTrace env recs title).1)).length := hi
    have hlen : i < (splitPages (contentTrace env recs title).1).length := by
      rw [← stampFrom_length (splitPages (contentTrace env recs title).1) 1]
      exact hi'
    refine ⟨(splitPages (contentTrace env recs title).1).get ⟨i, hlen⟩, ?_,
      hpages _ (List.get_mem ..)⟩
    have h2 := stampFrom_getElem? (splitPages (contentTrace env recs title).1) 1 i
    rw [List.getElem?_eq_getElem hlen, List.getElem?_eq_getElem hi'] at h2
    simp only [Option.map_some'] at h2
    have h3 : (1 : Nat) + i = i + 1 := Nat.add_comm 1 i
    rw [h3] at h2
    simp only [generateReport, List.get_eq_getElem]
    rw [Option.some.injEq] at h2
    rw [h2]

/-- Claim C2: for a bitmap with positive native size `(iw, ih)` and
bounds `(maxW, maxH)`, the scaling rule of `addRemoteImage` yields
`w ≤ maxW`, `h ≤ maxH`, preserves the aspect ratio exactly
(`w * ih = h * iw`), and is a pure function: equal inputs give equal
results on every run. -/
theorem fitImage_bounds_ratio :
    ∀ (iw ih maxW maxH : ℚ), 0 < iw → 0 < ih →
      (fitImage iw ih maxW maxH).1 ≤ maxW ∧
      (fitImage iw ih maxW maxH).2 ≤ maxH ∧
      (fitImage iw ih maxW maxH).1 * ih = (fitImage iw ih maxW maxH).2 * iw ∧
      (∀ iw2 ih2 mw2 mh2 : ℚ, iw2 = iw → ih2 = ih → mw2 = maxW → mh2 = maxH →
        fitImage iw2 ih2 mw2 mh2 = fitImage iw ih maxW maxH) := by
  intro iw ih maxW maxH hiw hih
  unfold fitImage
  dsimp only
  by_cases h : ih * maxW / iw > maxH
  · rw [if_pos h]
    refine ⟨?_, le_refl _, ?_, ?_⟩
    · rw [div_le_iff₀ hih]
      have h' : maxH * iw < ih * maxW := (lt_div_iff₀ hiw).mp h
      calc iw * maxH = maxH * iw := mul_comm _ _
        _ ≤ ih * maxW := le_of_lt h'
        _ = maxW * ih := mul_comm _ _
    · rw [div_mul_cancel₀ _ (ne_of_gt hih)]
      ring
    · intro iw2 ih2 mw2 mh2 h1 h2 h3 h4
      subst h1; subst h2; subst h3; subst h4
      rw [if_pos h]
  · rw [if_neg h]
    refine ⟨le_refl _, le_of_not_lt h, ?_, ?_⟩
    · rw [div_mul_cancel₀ _ (ne_of_gt hiw)]
      ring
    · intro iw2 ih2 mw2 mh2 h1 h2 h3 h4
      subst h1; subst h2; subst h3; subst h4
      rw [if_neg h]

theorem imageAttemptOps_shape (env : Env) (c : ℚ) (r : ResultRecord) :
    isImageAttempt r (imageAttemptOps env c (imgFileOf r)).1 := by
  unfold imageAttemptOps
  by_cases ht : jsTruthyStr (imgFileOf r) = true
  · rw [if_pos ht]
    cases hf : imgFileOf r with
    | none => rw [hf] at ht; simp [jsTruthyStr] at ht
    | some f =>
      right
      refine ⟨f, hf, ht, ?_⟩
      simp only [Option.getD_some]
      cases him : env.img (outputsUrl f) with
      | ok dim =>
        left
        exact ⟨margin, c, _, _, rfl⟩
      | err =>
        right
        exact ⟨c + 10, rfl⟩
  · rw [if_neg ht]
    left
    exact ⟨Bool.not_eq_true _ ▸ Bool.of_not_eq_true ht, rfl⟩

theorem bodyOps_shape (env : Env) (c : ℚ) (r : ResultRecord) :
    ∃ imgOps ys, isImageAttempt r imgOps ∧
      (bodyOps env c r).1 =
        Op.text (titleStr r) margin c :: Op.text (statsStr r) margin (c + 5) ::
          (imgOps ++ [Op.line margin ys (pageWidth - margin) ys]) :=
  ⟨(imageAttemptOps env (c + 5 + 5) (imgFileOf r)).1,
    (imageAttemptOps env (c + 5 + 5) (imgFileOf r)).2 + 5,
    imageAttemptOps_shape env (c + 5 + 5) r, rfl⟩

theorem recordBlock_isRecordBlock (env : Env) (c : ℚ) (r : ResultRecord) :
    isRecordBlock r (recordBlock env c r).1 := by
  unfold recordBlock
  split
  · obtain ⟨imgOps, ys, hatt, hops⟩ := bodyOps_shape env (margin + 10) r
    exact ⟨[Op.addPage], imgOps, margin + 10, ys, Or.inr rfl, hatt,
      by dsimp only; rw [hops]; rfl⟩
  · obtain ⟨imgOps, ys, hatt, hops⟩ := bodyOps_shape env c r
    exact ⟨[], imgOps, c, ys, Or.inl rfl, hatt, by rw [hops]; rfl⟩

theorem bodyOps_marker (env : Env) (c2 : ℚ) (r : ResultRecord) (f : String)
    (hf : imgFileOf r = some f) (hne : f ≠ "")
    (herr : env.img (outputsUrl f) = ImgResult.err) :
    ∃ y, Op.text "[Image Unavailable]" margin y ∈ (bodyOps env c2 r).1 := by
  have ht : jsTruthyStr (some f) = true := by simp [jsTruthyStr, hne]
  have himg : (imageAttemptOps env (c2 + 5 + 5) (imgFileOf r)).1 =
      [Op.text "[Image Unavailable]" margin (c2 + 5 + 5 + 10)] := by
    rw [hf]
    unfold imageAttemptOps
    rw [if_pos ht]
    simp only [Option.getD_some, herr]
  refine ⟨c2 + 5 + 5 + 10, ?_⟩
  show Op.text "[Image Unavailable]" margin (c2 + 5 + 5 + 10) ∈
    Op.text (titleStr r) margin c2 :: Op.text (statsStr r) margin (c2 + 5) ::
      ((imageAttemptOps env (c2 + 5 + 5) (imgFileOf r)).1 ++ [Op.line ..])
  rw [himg]
  simp

theorem recordBlock_blockRel (env : Env) (c : ℚ) (r : ResultRecord) :
    blockRel env r (recordBlock env c r).1 := by
  refine ⟨recordBlock_isRecordBlock env c r, ?_⟩
  intro f hf hne herr
  unfold recordBlock
  split
  · obtain ⟨y, hy⟩ := bodyOps_marker env (margin + 10) r f hf hne herr
    exact ⟨y, List.mem_cons_of_mem _ hy⟩
  · exact bodyOps_marker env c r f hf hne herr

theorem detailLoop_blocks :
    ∀ (recs : List ResultRecord) (env : Env) (c : ℚ),
      ∃ bs : List (List Op),
        (detailLoop env c recs).1 = bs.flatten ∧ List.Forall₂ (blockRel env) recs bs := by
  intro recs
  induction recs with
  | nil => intro env c; exact ⟨[], rfl, List.Forall₂.nil⟩
  | cons r rs ih =>
    intro env c
    obtain ⟨bs, hjoin, hrel⟩ := ih env (recordBlock env c r).2
    refine ⟨(recordBlock env c r).1 :: bs, ?_,
      List.Forall₂.cons (recordBlock_blockRel env c r) hrel⟩
    show (recordBlock env c r).1 ++ (detailLoop env (recordBlock env c r).2 rs).1 =
      ((recordBlock env c r).1 :: bs).flatten
    rw [hjoin]
    rfl

/-- Claim C1: for any nonempty records list, the detailed-analysis
section is the forced page break, the section header, and then exactly
one block per record, joined in input order, each block being a title
line, a stats line, an attempt at one detail image
(`comparison_map` preferred, else `result_image`), and a horizontal
separator. -/
theorem detail_section_block_structure :
    ∀ (env : Env) (recs : List ResultRecord) (c : ℚ), 0 < recs.length →
      ∃ bs : List (List Op),
        bs.length = recs.length ∧
        (detailSection env c recs).1 =
          Op.addPage :: (sectionHeaderOps "Detailed Analysis" (margin + 10) ++ bs.flatten) ∧
        List.Forall₂ (fun r ops => isRecordBlock r ops) recs bs := by
  intro env recs c h
  obtain ⟨bs, hjoin, hrel⟩ := detailLoop_blocks recs env (margin + 10 + 15)
  refine ⟨bs, hrel.length_eq.symm, ?_, hrel.imp (fun a b hab => hab.1)⟩
  unfold detailSection
  rw [if_pos h]
  dsimp only
  rw [hjoin]

/-- Claim C4: if acquisition of record `i`'s detail image fails, the
detail loop still emits one block per record in input order (no
exception escapes the loop); every record's block, including the
neighbours of `i`, keeps its full shape, while block `i` contains the
"[Image Unavailable]" marker. -/
theorem acquisition_failure_contained :
    ∀ (env : Env) (c : ℚ) (recs : List ResultRecord) (i : Nat)
      (hi : i < recs.length) (f : String),
      imgFileOf (recs.get ⟨i, hi⟩) = some f → f ≠ "" →
      env.img (outputsUrl f) = ImgResult.err →
      ∃ bs : List (List Op),
        bs.length = recs.length ∧
        (detailLoop env c recs).1 = bs.flatten ∧
        List.Forall₂ (fun r ops => isRecordBlock r ops) recs bs ∧
        ∃ (hbi : i < bs.length) (y : ℚ),
          Op.text "[Image Unavailable]" margin y ∈ bs.get ⟨i, hbi⟩ := by
  intro env c recs i hi f hf hne herr
  obtain ⟨bs, hjoin, hrel⟩ := detailLoop_blocks recs env c
  have hlen := hrel.length_eq
  have hbi : i < bs.length := hlen ▸ hi
  refine ⟨bs, hlen.symm, hjoin, hrel.imp (fun a b hab => hab.1), hbi, ?_⟩
  have hR := (List.forall₂_iff_get.mp hrel).2 i hi hbi
  exact hR.2 f hf hne herr

/-- Claim C5: in the detail loop the cursor is checked against the
80-unit estimated block height before anything of the record's block is
drawn: when `cursorY + 80 > pageHeight - margin` a page break is
emitted and the whole block is drawn from `margin + 10`; otherwise the
block is drawn at the current cursor. -/
theorem record_pagebreak_policy :
    ∀ (env : Env) (c : ℚ) (r : ResultRecord),
      (pageHeight - margin < c + 80 →
        (recordBlock env c r).1 = Op.addPage :: (bodyOps env (margin + 10) r).1 ∧
        ((bodyOps env (margin + 10) r).1).head? =
          some (Op.text (titleStr r) margin (margin + 10))) ∧
      (¬ pageHeight - margin < c + 80 →
        (recordBlock env c r).1 = (bodyOps env c r).1 ∧
        ((bodyOps env c r).1).head? = some (Op.text (titleStr r) margin c)) := by
  intro env c r
  constructor
  · intro h
    exact ⟨by unfold recordBlock; rw [if_pos h], rfl⟩
  · intro h
    exact ⟨by unfold recordBlock; rw [if_neg h], rfl⟩

/-- Claim C9: a record with no image reference at all draws no marker
and no image: its detail-block body is exactly the title line, the
stats line, and the separator, and the cursor advances by 30. -/
theorem missing_image_ref_silent :
    ∀ (env : Env) (c : ℚ) (r : ResultRecord),
      r.comparison_map = none → r.result_image = none →
      (bodyOps env c r).1 =
        [Op.text (titleStr r) margin c,
         Op.text (statsStr r) margin (c + 5),
         Op.line margin (c + 20) (pageWidth - margin) (c + 20)] ∧
      (bodyOps env c r).2 = c + 30 := by
  intro env c r h1 h2
  have hfile : imgFileOf r = none := by
    unfold imgFileOf jsOr
    rw [h1, h2]
    rfl
  have himg : imageAttemptOps env (c + 5 + 5) (imgFileOf r) = ([], c + 5 + 5 + 5) := by
    rw [hfile]
    rfl
  unfold bodyOps
  dsimp only
  rw [himg]
  dsimp only
  constructor
  · simp only [List.nil_append, List.cons.injEq, Op.line.injEq, and_true, true_and]
    constructor <;> ring
  · ring

theorem summaryRows_no_addPage :
    ∀ (recs : List ResultRecord) (c : ℚ) (idx : Nat),
      Op.addPage ∉ (summaryRows c idx recs).1 := by
  intro recs
  induction recs with
  | nil => intro c idx h; simp [summaryRows] at h
  | cons r rs ih =>
    intro c idx h
    rw [show (summaryRows c idx (r :: rs)).1 =
        tableRow idx c r ++ (summaryRows (c + 8) (idx + 1) rs).1 from rfl] at h
    rcases List.mem_append.mp h with h | h
    · unfold tableRow at h
      rcases List.mem_append.mp h with h | h
      · split at h <;> simp at h
      · simp at h
    · exact ih (c + 8) (idx + 1) h

theorem summaryRows_cursor :
    ∀ (recs : List ResultRecord) (c : ℚ) (idx : Nat),
      (summaryRows c idx recs).2 = c + 8 * recs.length := by
  intro recs
  induction recs with
  | nil => intro c idx; simp [summaryRows]
  | cons r rs ih =>
    intro c idx
    show (summaryRows (c + 8) (idx + 1) rs).2 = _
    rw [ih]
    push_cast [List.length_cons]
    ring

theorem summaryRows_row_mem :
    ∀ (recs : List ResultRecord) (c : ℚ) (idx i : Nat) (hi : i < recs.length),
      Op.text (dateCellStr (idx + i) recs[i]) (margin + 2) (c + 8 * (i : ℚ) + 6) ∈
        (summaryRows c idx recs).1 := by
  intro recs
  induction recs with
  | nil => intro c idx i hi; exact absurd hi (Nat.not_lt_zero i)
  | cons r rs ih =>
    intro c idx i hi
    cases i with
    | zero =>
      simp only [List.getElem_cons_zero, Nat.add_zero, Nat.cast_zero, mul_zero, add_zero]
      show Op.text (dateCellStr idx r) (margin + 2) (c + 6) ∈
        tableRow idx c r ++ (summaryRows (c + 8) (idx + 1) rs).1
      refine List.mem_append_left _ ?_
      unfold tableRow
      refine List.mem_append_right _ ?_
      simp
    | succ j =>
      have hj : j < rs.length := Nat.lt_of_succ_lt_succ hi
      have h1 : idx + (j + 1) = idx + 1 + j := by omega
      have h2 : c + 8 * ((j + 1 : ℕ) : ℚ) + 6 = c + 8 + 8 * (j : ℚ) + 6 := by
        push_cast
        ring
      simp only [List.getElem_cons_succ]
      rw [h1, h2]
      show _ ∈ tableRow idx c r ++ (summaryRows (c + 8) (idx + 1) rs).1
      exact List.mem_append_right _ (ih (c + 8) (idx + 1) j hj)

/-- Claim C6 counterexample: with 20 records the summary table, which
starts its rows at cursor 155 on page 1, draws row 17 (its date cell
"Dataset 17") at y = 289, below `pageHeight - margin = 282`, and the
table loop emits no page break at all. -/
theorem summary_row_below_margin_cex :
    Op.text "Dataset 17" (margin + 2) 289 ∈ (summaryRows 155 0 recs20).1 ∧
    Op.addPage ∉ (summaryRows 155 0 recs20).1 ∧
    pageHeight - margin < 289 := by
  refine ⟨?_, summaryRows_no_addPage recs20 155 0, by norm_num [pageHeight, margin]⟩
  have h := summaryRows_row_mem recs20 155 0 16 (by decide)
  have h1 : dateCellStr (0 + 16) recs20[16] = "Dataset 17" := rfl
  have h2 : (155 : ℚ) + 8 * ((16 : ℕ) : ℚ) + 6 = 289 := by push_cast; norm_num
  rw [h1, h2] at h
  exact h

/-- Claim C6 (amended): the summary-table rows never consult the
page-flow logic: the table emits no page break, the cursor advances by
a fixed 8 units per row, and row `i`'s cells are drawn at
`y = c + 8 i + 6` regardless of the bottom margin, so enough records
push rows below `pageHeight - margin`. -/
theorem summary_rows_no_pagebreak :
    ∀ (recs : List ResultRecord) (c : ℚ) (idx : Nat),
      Op.addPage ∉ (summaryRows c idx recs).1 ∧
      (summaryRows c idx recs).2 = c + 8 * recs.length ∧
      ∀ i (hi : i < recs.length),
        Op.text (dateCellStr (idx + i) recs[i]) (margin + 2) (c + 8 * (i : ℚ) + 6) ∈
          (summaryRows c idx recs).1 :=
  fun recs c idx =>
    ⟨summaryRows_no_addPage recs c idx, summaryRows_cursor recs c idx,
      fun i hi => summaryRows_row_mem recs c idx i hi⟩

theorem addRemoteImage_ok (env : Env) (f t : String) (c : ℚ)
    (hne : f ≠ "") (dim : ImgDim) (hok : env.img (outputsUrl f) = ImgResult.ok dim) :
    addRemoteImage env (some f) t c =
      ((if c + 120 > pageHeight - margin then [Op.addPage] else []) ++
        sectionHeaderOps t (if c + 120 > pageHeight - margin then margin + 10 else c) ++
        [Op.image (outputsUrl f)
          ((pageWidth - (fitImage dim.width dim.height (pageWidth - 2 * margin) 120).1) / 2)
          ((if c + 120 > pageHeight - margin then margin + 10 else c) + 15)
          (fitImage dim.width dim.height (pageWidth - 2 * margin) 120).1
          (fitImage dim.width dim.height (pageWidth - 2 * margin) 120).2],
        (if c + 120 > pageHeight - margin then margin + 10 else c) + 15 +
          (fitImage dim.width dim.height (pageWidth - 2 * margin) 120).2 + 10) := by
  unfold addRemoteImage
  rw [if_pos (show jsTruthyStr (some f) = true by simp [jsTruthyStr, hne])]
  simp only [Option.getD_some, hok]

/-- Claim C7 counterexample: a records list whose first record carries a
present (and loadable) `composite_map` but no `combined_volume_map`
yields an empty composite-image block: the composite slot is never
consulted, so no composite image is drawn even though the slot is
present. -/
theorem composite_map_not_drawn_cex :
    jsTruthyStr rComp.composite_map = true ∧
    compositeOps env0 [rComp] 100 = ([], 100) :=
  ⟨rfl, rfl⟩

/-- Claim C7 (amended): the whole-document composite block consults only
`records[0].combined_volume_map`: it is independent of every later
record and of the `composite_map` slot, and when the combined-volume
slot is present and loads successfully it draws exactly one image,
sourced from that slot. -/
theorem composite_combined_only :
    ∀ (env : Env) (r : ResultRecord) (rs rs' : List ResultRecord) (c : ℚ)
      (v : Option String) (f : String) (dim : ImgDim),
      r.combined_volume_map = some f → f ≠ "" →
      env.img (outputsUrl f) = ImgResult.ok dim →
      compositeOps env (r :: rs) c = compositeOps env (r :: rs') c ∧
      compositeOps env ({ r with composite_map := v } :: rs) c =
        compositeOps env (r :: rs) c ∧
      imageCount (compositeOps env (r :: rs) c).1 = 1 ∧
      ∃ x y w h, Op.image (outputsUrl f) x y w h ∈ (compositeOps env (r :: rs) c).1 := by
  intro env r rs rs' c v f dim hf hne hok
  have hcomp : compositeOps env (r :: rs) c =
      addRemoteImage env (some f) "Multi-Temporal 3D Volumetric View" c := by
    unfold compositeOps
    dsimp only
    rw [hf, if_pos (show jsTruthyStr (some f) = true by simp [jsTruthyStr, hne])]
  refine ⟨rfl, ?_, ?_, ?_⟩
  · rcases r with ⟨fn, d, a, vtm, cm, ri, cvm, cpm⟩
    rfl
  · rw [hcomp, addRemoteImage_ok env f _ c hne dim hok]
    unfold imageCount
    rw [List.countP_append, List.countP_append]
    split <;> rfl
  · rw [hcomp, addRemoteImage_ok env f _ c hne dim hok]
    exact ⟨(pageWidth - (fitImage dim.width dim.height (pageWidth - 2 * margin) 120).1) / 2,
      (if c + 120 > pageHeight - margin then margin + 10 else c) + 15,
      (fitImage dim.width dim.height (pageWidth - 2 * margin) 120).1,
      (fitImage dim.width dim.height (pageWidth - 2 * margin) 120).2,
      by simp [List.mem_append]⟩

/-- Claim C8 counterexample: an element styled with a red background and
rounded corners, whose snapshot capture fails, is left carrying the
temporary override (solid dark background, square corners) after
`captureChart` returns: the original style is not restored on the
failure path. -/
theorem capture_style_not_restored_cex :
    (captureChart "Area Trends" (some { background := "red", borderRadius := "8px" })
        CanvasRes.err 50).2.2 =
      some { background := "#0f172a", borderRadius := "0" } ∧
    ({ background := "red", borderRadius := "8px" } : ElemStyle) ≠
      { background := "#0f172a", borderRadius := "0" } := by
  constructor
  · rfl
  · decide

/-- Claim C8 (amended): `captureChart` restores the element's original
inline style only on the success path; when `html2canvas` fails the
catch branch leaves the temporary override (`#0f172a` background,
`0` border radius) on the element, and when the element is absent no
style is touched. -/
theorem capture_style_restore_paths :
    ∀ (t : String) (st : ElemStyle) (cw ch c : ℚ) (res : CanvasRes),
      (captureChart t (some st) (CanvasRes.ok cw ch) c).2.2 = some st ∧
      (captureChart t (some st) CanvasRes.err c).2.2 =
        some { background := "#0f172a", borderRadius := "0" } ∧
      captureChart t none res c = ([], c, none) := by
  intro t st cw ch c res
  exact ⟨rfl, rfl, rfl⟩

/-- Claim C10: a record whose `volume_tmc` is exactly 0 renders "0.00"
in the summary-table volume cell and "0 TMC" in the detail stats line,
exactly as a record with no `volume_tmc` at all: zero and missing
volumes are indistinguishable in the output. -/
theorem zero_volume_renders_like_missing :
    ∀ (r rn : ResultRecord), r.volume_tmc = some 0 → rn.volume_tmc = none →
      volCellText r = "0.00" ∧ volDetailText r = "0 TMC" ∧
      volCellText r = volCellText rn ∧ volDetailText r = volDetailText rn := by
  intro r rn h1 h2
  have ht : jsTruthyNum r.volume_tmc = false := by rw [h1]; simp [jsTruthyNum]
  have ht2 : jsTruthyNum rn.volume_tmc = false := by rw [h2]; rfl
  unfold volCellText volDetailText
  rw [ht, ht2]
  simp

theorem splitPagesAux_ne_nil : ∀ (l cur : List Op), splitPagesAux cur l ≠ [] := by
  intro l
  induction l with
  | nil => intro cur h; simp [splitPagesAux] at h
  | cons o rest ih =>
    intro cur h
    unfold splitPagesAux at h
    split at h
    · simp at h
    · exact ih (o :: cur) h

theorem generateReport_length_pos (env : Env) (recs : List ResultRecord) (t : String) :
    0 < (generateReport env recs t).length := by
  unfold generateReport
  rw [stampFrom_length]
  rcases h : splitPages (contentTrace env recs t).1 with _ | ⟨p, ps⟩
  · exact absurd h (splitPagesAux_ne_nil _ [])
  · simp [h]

theorem detail_section_block_structure_witness :
    0 < ([rec0] : List ResultRecord).length ∧
    ∃ bs : List (List Op),
      bs.length = ([rec0] : List ResultRecord).length ∧
      (detailSection env0 0 [rec0]).1 =
        Op.addPage :: (sectionHeaderOps "Detailed Analysis" (margin + 10) ++ bs.flatten) ∧
      List.Forall₂ (fun r ops => isRecordBlock r ops) [rec0] bs :=
  ⟨by decide, detail_section_block_structure env0 [rec0] 0 (by decide)⟩

theorem fitImage_bounds_ratio_witness :
    (0 : ℚ) < 100 ∧ (0 : ℚ) < 50 ∧
    ((fitImage 100 50 180 120).1 ≤ 180 ∧
     (fitImage 100 50 180 120).2 ≤ 120 ∧
     (fitImage 100 50 180 120).1 * 50 = (fitImage 100 50 180 120).2 * 100 ∧
     (∀ iw2 ih2 mw2 mh2 : ℚ, iw2 = 100 → ih2 = 50 → mw2 = 180 → mh2 = 120 →
       fitImage iw2 ih2 mw2 mh2 = fitImage 100 50 180 120)) :=
  ⟨by norm_num, by norm_num,
    fitImage_bounds_ratio 100 50 180 120 (by norm_num) (by norm_num)⟩

theorem overlay_pass_complete_witness :
    0 < (generateReport env0 [rec0] "T").length ∧
    ∃ pre : List Op,
      (generateReport env0 [rec0] "T").get ⟨0, generateReport_length_pos env0 [rec0] "T"⟩ =
        pre ++ [Op.watermark, Op.footer (0 + 1)] ∧
      noOverlay pre = true :=
  ⟨generateReport_length_pos env0 [rec0] "T",
    (overlay_pass_complete env0 [rec0] "T").2 0 (generateReport_length_pos env0 [rec0] "T")⟩

theorem acquisition_failure_contained_witness :
    imgFileOf (([rFail] : List ResultRecord).get ⟨0, by decide⟩) = some "x.png" ∧
    "x.png" ≠ "" ∧
    envErr.img (outputsUrl "x.png") = ImgResult.err ∧
    ∃ bs : List (List Op),
      bs.length = ([rFail] : List ResultRecord).length ∧
      (detailLoop envErr 40 [rFail]).1 = bs.flatten ∧
      List.Forall₂ (fun r ops => isRecordBlock r ops) [rFail] bs ∧
      ∃ (hbi : 0 < bs.length) (y : ℚ),
        Op.text "[Image Unavailable]" margin y ∈ bs.get ⟨0, hbi⟩ :=
  ⟨rfl, by decide, rfl,
    acquisition_failure_contained envErr 40 [rFail] 0 (by decide) "x.png" rfl (by decide) rfl⟩

theorem record_pagebreak_policy_witness :
    pageHeight - margin < 280 + 80 ∧
    ((recordBlock env0 280 rec0).1 = Op.addPage :: (bodyOps env0 (margin + 10) rec0).1 ∧
      ((bodyOps env0 (margin + 10) rec0).1).head? =
        some (Op.text (titleStr rec0) margin (margin + 10))) :=
  ⟨by norm_num [pageHeight, margin],
    (record_pagebreak_policy env0 280 rec0).1 (by norm_num [pageHeight, margin])⟩

theorem summary_rows_no_pagebreak_witness :
    0 < ([rec0] : List ResultRecord).length ∧
    Op.text (dateCellStr (0 + 0) (([rec0] : List ResultRecord)[0])) (margin + 2)
        (155 + 8 * ((0 : ℕ) : ℚ) + 6) ∈ (summaryRows 155 0 [rec0]).1 :=
  ⟨by decide, (summary_rows_no_pagebreak [rec0] 155 0).2.2 0 (by decide)⟩

theorem composite_combined_only_witness :
    rCombined.combined_volume_map = some "cv.png" ∧
    "cv.png" ≠ "" ∧
    env0.img (outputsUrl "cv.png") = ImgResult.ok { width := 100, height := 50 } ∧
    (compositeOps env0 (rCombined :: []) 100 = compositeOps env0 (rCombined :: [rec0]) 100 ∧
     compositeOps env0 ({ rCombined with composite_map := some "z.png" } :: []) 100 =
       compositeOps env0 (rCombined :: []) 100 ∧
     imageCount (compositeOps env0 (rCombined :: []) 100).1 = 1 ∧
     ∃ x y w h, Op.image (outputsUrl "cv.png") x y w h ∈
       (compositeOps env0 (rCombined :: []) 100).1) :=
  ⟨rfl, by decide, rfl,
    composite_combined_only env0 rCombined [] [rec0] 100 (some "z.png") "cv.png"
      { width := 100, height := 50 } rfl (by decide) rfl⟩

theorem missing_image_ref_silent_witness :
    rec0.comparison_map = none ∧ rec0.result_image = none ∧
    ((bodyOps env0 40 rec0).1 =
      [Op.text (titleStr rec0) margin 40,
       Op.text (statsStr rec0) margin (40 + 5),
       Op.line margin (40 + 20) (pageWidth - margin) (40 + 20)] ∧
     (bodyOps env0 40 rec0).2 = 40 + 30) :=
  ⟨rfl, rfl, missing_image_ref_silent env0 40 rec0 rfl rfl⟩

theorem zero_volume_renders_like_missing_witness :
    rZero.volume_tmc = some 0 ∧ rec0.volume_tmc = none ∧
    (volCellText rZero = "0.00" ∧ volDetailText rZero = "0 TMC" ∧
     volCellText rZero = volCellText rec0 ∧ volDetailText rZero = volDetailText rec0) :=
  ⟨rfl, rfl, zero_volume_renders_like_missing rZero rec0 rfl rfl⟩
